import Mathlib

/-!
Verification of the ridesim dispatch/simulation engine (src/backend).

The Python source is shallowly embedded: every service method becomes a pure
Lean function; the mutable engine (driver list, rider registry, request
registry, FIFO queue, id counters) becomes an explicit `EngineState` value
threaded through each operation.  Python exceptions that escape an operation
are modelled as explicit error results; since CPython applies mutations up to
the raise point, each operation returns its (possibly partially mutated)
state together with the result or error.  Request/rider registries are Python
dicts keyed by the entity id (one entry per id, insertion ordered), embedded
as association lists; object aliasing (queue entries and service arguments
alias registry objects) is embedded as lookup/update-by-id of the first (and
only) entry with that id.  `datetime` timestamps carry no logic and are
omitted.
-/

/-! ### config.py -/

def DEFAULT_GRID_WIDTH : Int := 20

def DEFAULT_GRID_HEIGHT : Int := 20

def DEFAULT_DRIVER_SPEED : Nat := 1

def FAIRNESS_BONUS_MULTIPLIER : Int := 10

def MAX_IDLE_TIME_BONUS : Int := 50

/-! ### models.py -/

inductive DriverStatus where
  | available
  | on_trip
  | offline
deriving DecidableEq

inductive RideRequestStatus where
  | waiting
  | assigned
  | completed
  | failed
deriving DecidableEq

inductive TripPhase where
  | to_pickup
  | to_dropoff
deriving DecidableEq

structure Driver where
  id : String
  x : Int
  y : Int
  status : DriverStatus
  totalTrips : Nat
  idleTicks : Nat
  assignedRequestId : Option String
  tripPhase : Option TripPhase
  targetX : Option Int
  targetY : Option Int
deriving DecidableEq

structure Rider where
  id : String
  pickup_x : Int
  pickup_y : Int
  dropoff_x : Int
  dropoff_y : Int
deriving DecidableEq

structure RideRequest where
  id : String
  rider_id : String
  status : RideRequestStatus
  pickup_x : Int
  pickup_y : Int
  dropoff_x : Int
  dropoff_y : Int
  assigned_driver_id : Option String
deriving DecidableEq

structure SimulationStats where
  totalRequests : Nat
  completedRides : Nat
  failedRides : Nat
  averageETA : Nat
  activeDrivers : Nat
  totalDrivers : Nat
deriving DecidableEq

/-- Python exceptions that can escape an engine operation:
`PositionOutOfBoundsError` from bounds validation, and the `AttributeError`
raised by `RequestService.assign_request` when `SimulationEngine._process_queue`
passes it `request.assigned_driver_id` (a `str`) in place of a `Driver`. -/
inductive PyError where
  | outOfBounds
  | attrError
deriving DecidableEq

/-! ### services/scoring_service.py (pure static methods) -/

/-- `ScoringService.calculate_distance`: Manhattan distance. -/
def ScoringService.calculate_distance (from_x from_y to_x to_y : Int) : Nat :=
  (from_x - to_x).natAbs + (from_y - to_y).natAbs

/-- `ScoringService.calculate_eta`: `(distance + driver_speed - 1) // driver_speed`
(Python floor division on non-negative ints; default speed 1). -/
def ScoringService.calculate_eta (from_x from_y to_x to_y : Int)
    (driver_speed : Nat := 1) : Nat :=
  (ScoringService.calculate_distance from_x from_y to_x to_y + driver_speed - 1) / driver_speed

/-- `ScoringService.calculate_driver_score`:
`eta + totalTrips * FAIRNESS_BONUS_MULTIPLIER - min(idleTicks, MAX_IDLE_TIME_BONUS)`.
All summands are ints in Python (the declared `float` return is int-valued). -/
def ScoringService.calculate_driver_score (driver : Driver) (request : RideRequest) : Int :=
  (ScoringService.calculate_eta driver.x driver.y request.pickup_x request.pickup_y : Int)
    + (driver.totalTrips : Int) * FAIRNESS_BONUS_MULTIPLIER
    - min (driver.idleTicks : Int) MAX_IDLE_TIME_BONUS

/-- One insertion step of a stable insertion sort on (driver, score) pairs:
an element is placed before the first element of greater-or-equal score, so
relative order of equal scores is preserved (`list.sort` in CPython is stable). -/
def insertByScore (p : Driver × Int) : List (Driver × Int) → List (Driver × Int)
  | [] => [p]
  | q :: qs => if p.2 ≤ q.2 then p :: q :: qs else q :: insertByScore p qs

/-- Stable sort by ascending score, embedding `scored_drivers.sort(key=lambda x: x[1])`. -/
def sortByScore (l : List (Driver × Int)) : List (Driver × Int) :=
  l.foldr insertByScore []

/-- `ScoringService.find_best_driver`: raise `ValueError` on an empty list
(embedded as `none`), otherwise score all drivers, stable-sort ascending and
take the first. -/
def ScoringService.find_best_driver (drivers : List Driver) (request : RideRequest) :
    Option Driver :=
  match sortByScore (drivers.map fun d => (d, ScoringService.calculate_driver_score d request)) with
  | [] => none
  | p :: _ => some p.1

/-- First element of minimal score in a scored list (later elements must beat
earlier ones strictly to win); specification device for `find_best_driver`. -/
def firstMinP : List (Driver × Int) → Option (Driver × Int)
  | [] => none
  | p :: rest =>
    match firstMinP rest with
    | none => some p
    | some q => if p.2 ≤ q.2 then some p else some q

/-! ### Engine state (the mutable object graph of `SimulationEngine`) -/

structure EngineState where
  drivers : List Driver
  driverCounter : Nat
  riders : List Rider
  riderCounter : Nat
  requests : List RideRequest
  requestCounter : Nat
  queue : List String
deriving DecidableEq

/-- Fresh engine (`SimulationEngine.__init__` / after `reset`). -/
def initialState : EngineState :=
  { drivers := [], driverCounter := 0, riders := [], riderCounter := 0,
    requests := [], requestCounter := 0, queue := [] }

/-! ### generic list helpers embedding in-place mutation of the object found
by a first-match lookup, and `del` on the first match -/

/-- Replace the first element satisfying `p` by its image under `f`
(mutating the object returned by a Python lookup). -/
def updFirst (p : α → Bool) (f : α → α) : List α → List α
  | [] => []
  | a :: l => if p a then f a :: l else a :: updFirst p f l

/-- Delete the first element satisfying `p` (Python `del` / `dict` removal). -/
def removeFirst (p : α → Bool) : List α → List α
  | [] => []
  | a :: l => if p a then l else a :: removeFirst p l

def lookupDriver (st : EngineState) (i : String) : Option Driver :=
  st.drivers.find? fun d => d.id == i

def lookupRider (st : EngineState) (i : String) : Option Rider :=
  st.riders.find? fun r => r.id == i

def lookupRequest (st : EngineState) (i : String) : Option RideRequest :=
  st.requests.find? fun r => r.id == i

def updFirstDriver (st : EngineState) (i : String) (f : Driver → Driver) : EngineState :=
  { st with drivers := updFirst (fun d => d.id == i) f st.drivers }

def updFirstRequest (st : EngineState) (i : String) (f : RideRequest → RideRequest) :
    EngineState :=
  { st with requests := updFirst (fun r => r.id == i) f st.requests }

/-- `DriverService._is_valid_position` / `RiderService._is_valid_position`:
`0 <= x < DEFAULT_GRID_WIDTH and 0 <= y < DEFAULT_GRID_HEIGHT`. -/
def is_valid_position (x y : Int) : Bool :=
  decide (0 ≤ x ∧ x < DEFAULT_GRID_WIDTH ∧ 0 ≤ y ∧ y < DEFAULT_GRID_HEIGHT)

/-- `DriverService.get_available_drivers`. -/
def get_available_drivers (st : EngineState) : List Driver :=
  st.drivers.filter fun d => d.status == DriverStatus.available

/-- `DriverService.get_busy_drivers`. -/
def get_busy_drivers (st : EngineState) : List Driver :=
  st.drivers.filter fun d => d.status == DriverStatus.on_trip

/-! ### services/driver_service.py -/

/-- `DriverService.add_driver`: validate bounds first (raising
`PositionOutOfBoundsError` before any mutation), then increment the counter,
create the driver and append it. -/
def DriverService.add_driver (st : EngineState) (x y : Int) :
    Except PyError Driver × EngineState :=
  if is_valid_position x y then
    let n := st.driverCounter + 1
    let d : Driver :=
      { id := "Driver " ++ Nat.repr n, x := x, y := y, status := DriverStatus.available,
        totalTrips := 0, idleTicks := 0, assignedRequestId := none,
        tripPhase := none, targetX := none, targetY := none }
    (Except.ok d, { st with drivers := st.drivers ++ [d], driverCounter := n })
  else
    (Except.error PyError.outOfBounds, st)

/-- `DriverService.move_driver_one_step` applied to one driver record:
no move without a target, else one unit per axis toward the target. -/
def movePos (d : Driver) : Driver :=
  match d.targetX, d.targetY with
  | some tx, some ty =>
    let x1 := if d.x < tx then d.x + 1 else if tx < d.x then d.x - 1 else d.x
    let y1 := if d.y < ty then d.y + 1 else if ty < d.y then d.y - 1 else d.y
    { d with x := x1, y := y1 }
  | _, _ => d

/-- `DriverService.complete_trip` on one driver record. -/
def completeTripDriver (d : Driver) : Driver :=
  { d with status := DriverStatus.available, tripPhase := none, targetX := none,
           targetY := none, assignedRequestId := none,
           totalTrips := d.totalTrips + 1, idleTicks := 0 }

/-! ### services/request_service.py -/

/-- `RequestService.create_request`: fresh sequential id, status `waiting`,
positions copied from the rider, appended to the registry. -/
def RequestService.create_request (st : EngineState) (rider : Rider) :
    RideRequest × EngineState :=
  let n := st.requestCounter + 1
  let req : RideRequest :=
    { id := "Request " ++ Nat.repr n, rider_id := rider.id,
      status := RideRequestStatus.waiting,
      pickup_x := rider.pickup_x, pickup_y := rider.pickup_y,
      dropoff_x := rider.dropoff_x, dropoff_y := rider.dropoff_y,
      assigned_driver_id := none }
  (req, { st with requests := st.requests ++ [req], requestCounter := n })

/-- `RequestService.remove_requests_for_rider`: delete every registry request
whose `rider_id` matches. -/
def RequestService.remove_requests_for_rider (st : EngineState) (rider_id : String) :
    EngineState :=
  { st with requests := st.requests.filter fun r => !(r.rider_id == rider_id) }

/-! ### services/queue_service.py -/

/-- The loop body of `QueueService.process_queue`: walk the queue snapshot in
FIFO order; break when the remaining pool is empty; otherwise `find_best_driver`
over the remaining pool, record the (request, driver) assignment and drop every
pool entry with the consumed driver's id.  (`find_best_driver` cannot fail on a
non-empty pool; the `except ValueError: continue` arm is the `none` case.) -/
def drainAssignments : List RideRequest → List Driver → List (RideRequest × Driver)
  | _, [] => []
  | [], _ => []
  | r :: rs, pool =>
    match ScoringService.find_best_driver pool r with
    | none => drainAssignments rs pool
    | some d => (r, d) :: drainAssignments rs (pool.filter fun p => !(p.id == d.id))

/-- The registry records aliased by the queue (queue entries are the registry
objects themselves; on every reachable state each queued id is present). -/
def queueSnapshot (st : EngineState) : List RideRequest :=
  st.queue.filterMap fun qid => st.requests.find? fun r => r.id == qid

/-- `QueueService._assign_request_to_driver` (identical field updates to the
engine's `_assign_request_to_driver` + `RequestService.assign_request`):
request becomes `assigned` to the driver; driver goes `on_trip`, phase
`to_pickup`, target = request pickup, idleTicks 0. -/
def applyAssignment (st : EngineState) (pr : RideRequest × Driver) : EngineState :=
  let st1 := updFirstRequest st pr.1.id fun r =>
    { r with status := RideRequestStatus.assigned, assigned_driver_id := some pr.2.id }
  updFirstDriver st1 pr.2.id fun d =>
    { d with status := DriverStatus.on_trip, assignedRequestId := some pr.1.id,
             tripPhase := some TripPhase.to_pickup,
             targetX := some pr.1.pickup_x, targetY := some pr.1.pickup_y,
             idleTicks := 0 }

/-- `QueueService.process_queue`: compute the assignments over the queue
snapshot, apply them (mutating the aliased registry objects), then remove each
processed request from the queue (`list.remove`, first occurrence). -/
def QueueService.process_queue (st : EngineState) (pool : List Driver) :
    EngineState × List (RideRequest × Driver) :=
  let as := drainAssignments (queueSnapshot st) pool
  let st1 := as.foldl applyAssignment st
  ({ st1 with queue := as.foldl (fun q pr => q.erase pr.1.id) st1.queue }, as)

/-! ### simulation_engine.py -/

/-- `SimulationEngine._process_queue`: drain against the currently available
drivers, then re-notify the request service.  The re-notification loop calls
`RequestService.assign_request(request, request.assigned_driver_id)`, passing a
`str` where a `Driver` is expected: on its first iteration it re-sets
`request.status = "assigned"` and then raises `AttributeError` evaluating
`driver.id`.  Hence: whenever the drain assigned at least one request, the
mutations stand but the operation raises. -/
def SimulationEngine.process_queue (st : EngineState) : Option PyError × EngineState :=
  let pool := get_available_drivers st
  match QueueService.process_queue st pool with
  | (st1, []) => (none, st1)
  | (st1, pr :: _) =>
    (some PyError.attrError,
     updFirstRequest st1 pr.1.id fun r => { r with status := RideRequestStatus.assigned })

/-- `SimulationEngine.remove_rider`: delete the rider's requests from the
registry, drop the queue entries whose (live) request object belongs to the
rider, then delete the rider (returning whether it existed).  The queued ids
belonging to the rider are computed from the registry before the deletion,
matching the attribute reads on the still-live aliased objects. -/
def SimulationEngine.remove_rider (st : EngineState) (rider_id : String) :
    Bool × EngineState :=
  let ridsToRemove := (st.requests.filter fun r => r.rider_id == rider_id).map fun r => r.id
  let st1 := RequestService.remove_requests_for_rider st rider_id
  let st2 := { st1 with queue := st1.queue.filter fun qid => !(ridsToRemove.contains qid) }
  match lookupRider st2 rider_id with
  | some _ => (true, { st2 with riders := removeFirst (fun r => r.id == rider_id) st2.riders })
  | none => (false, st2)

/-- `SimulationEngine._complete_trip`: mark the request completed, reset the
driver, remove the rider (which also deletes the rider's requests — including
the just-completed one — from the registry), then drain the queue. -/
def SimulationEngine.complete_trip (st : EngineState) (driverId : String)
    (req : RideRequest) : Option PyError × EngineState :=
  let st1 := updFirstRequest st req.id fun r => { r with status := RideRequestStatus.completed }
  let st2 := updFirstDriver st1 driverId completeTripDriver
  let st3 := (SimulationEngine.remove_rider st2 req.rider_id).2
  SimulationEngine.process_queue st3

/-- `SimulationEngine._move_driver_one_step` for the driver with id `i`:
move one step; if the driver now sits on its target, transition the phase
(`to_pickup` retargets to the dropoff, `to_dropoff` completes the trip);
a missing request is a logged no-op. -/
def SimulationEngine.move_driver_one_step (st : EngineState) (i : String) :
    Option PyError × EngineState :=
  match lookupDriver st i with
  | none => (none, st)
  | some d0 =>
    let d1 := movePos d0
    let st1 := updFirstDriver st i movePos
    match d1.targetX, d1.targetY with
    | some tx, some ty =>
      if d1.x == tx && d1.y == ty then
        match d1.assignedRequestId with
        | none => (none, st1)
        | some rid =>
          match lookupRequest st1 rid with
          | none => (none, st1)
          | some req =>
            match d1.tripPhase with
            | some TripPhase.to_pickup =>
              (none, updFirstDriver st1 i fun d =>
                { d with tripPhase := some TripPhase.to_dropoff,
                         targetX := some req.dropoff_x, targetY := some req.dropoff_y })
            | some TripPhase.to_dropoff => SimulationEngine.complete_trip st1 i req
            | none => (none, st1)
      else (none, st1)
    | _, _ => (none, st1)

/-- Ids of the drivers in the `get_busy_drivers()` snapshot taken at the top of
`advance_tick` (list order). -/
def busyIds (st : EngineState) : List String :=
  (get_busy_drivers st).map fun d => d.id

/-- The movement loop of `advance_tick`; an exception escaping
`_move_driver_one_step` aborts the remainder of the tick. -/
def runBusy (st : EngineState) : List String → Option PyError × EngineState
  | [] => (none, st)
  | i :: rest =>
    match SimulationEngine.move_driver_one_step st i with
    | (some e, st1) => (some e, st1)
    | (none, st1) => runBusy st1 rest

/-- The idle loop of `advance_tick`: `increment_idle_ticks` on every driver in
the (fresh) `get_available_drivers()` snapshot. -/
def incrementIdles (st : EngineState) : EngineState :=
  { st with drivers := st.drivers.map fun d =>
      if d.status == DriverStatus.available then { d with idleTicks := d.idleTicks + 1 } else d }

/-- `SimulationEngine.advance_tick`: move busy drivers (with phase transitions
and trip completions), increment idle ticks of available drivers, then drain
the queue. -/
def SimulationEngine.advance_tick (st : EngineState) : Option PyError × EngineState :=
  match runBusy st (busyIds st) with
  | (some e, st1) => (some e, st1)
  | (none, st1) => SimulationEngine.process_queue (incrementIdles st1)

/-- `SimulationEngine._try_assign_request`: `find_best_driver` over the
available drivers and assign on success (an empty pool, and the caught
`ValueError`, both yield `False`). -/
def SimulationEngine.try_assign_request (st : EngineState) (req : RideRequest) :
    Bool × EngineState :=
  match ScoringService.find_best_driver (get_available_drivers st) req with
  | none => (false, st)
  | some d => (true, applyAssignment st (req, d))

/-- `SimulationEngine.add_driver`: create the driver (bounds-checked), then
immediately drain the queue. -/
def SimulationEngine.add_driver (st : EngineState) (x y : Int) :
    Except PyError Driver × EngineState :=
  match DriverService.add_driver st x y with
  | (Except.error e, st1) => (Except.error e, st1)
  | (Except.ok d, st1) =>
    match SimulationEngine.process_queue st1 with
    | (some e, st2) => (Except.error e, st2)
    | (none, st2) => (Except.ok d, st2)

/-- `SimulationEngine.remove_driver` (via `DriverService.remove_driver`):
delete the first driver with this id, reporting whether one was found. -/
def SimulationEngine.remove_driver (st : EngineState) (i : String) : Bool × EngineState :=
  match lookupDriver st i with
  | some _ => (true, { st with drivers := removeFirst (fun d => d.id == i) st.drivers })
  | none => (false, st)

/-- `RiderService.add_rider`: validate pickup then dropoff (raising before any
mutation), then increment the counter and insert the rider. -/
def RiderService.add_rider (st : EngineState) (pickup_x pickup_y dropoff_x dropoff_y : Int) :
    Except PyError Rider × EngineState :=
  if !is_valid_position pickup_x pickup_y then (Except.error PyError.outOfBounds, st)
  else if !is_valid_position dropoff_x dropoff_y then (Except.error PyError.outOfBounds, st)
  else
    let n := st.riderCounter + 1
    let rider : Rider :=
      { id := "Rider " ++ Nat.repr n, pickup_x := pickup_x, pickup_y := pickup_y,
        dropoff_x := dropoff_x, dropoff_y := dropoff_y }
    (Except.ok rider, { st with riders := st.riders ++ [rider], riderCounter := n })

/-- The shared `if not self._try_assign_request(request): self.queue_service.add_to_queue(request)`
step of `add_rider` and `create_request`. -/
def assignOrEnqueue (st : EngineState) (req : RideRequest) : EngineState :=
  match SimulationEngine.try_assign_request st req with
  | (true, st1) => st1
  | (false, st1) => { st1 with queue := st1.queue ++ [req.id] }

/-- `SimulationEngine.add_rider`: create rider and request, try an immediate
assignment, otherwise enqueue. -/
def SimulationEngine.add_rider (st : EngineState) (px py dx dy : Int) :
    Except PyError (Rider × RideRequest) × EngineState :=
  match RiderService.add_rider st px py dx dy with
  | (Except.error e, st1) => (Except.error e, st1)
  | (Except.ok rider, st1) =>
    let (req, st2) := RequestService.create_request st1 rider
    (Except.ok (rider, req), assignOrEnqueue st2 req)

/-- `SimulationEngine.create_request`: `None` for a missing rider, else create
a request for the rider's stored positions, assign or enqueue. -/
def SimulationEngine.create_request (st : EngineState) (rider_id : String) :
    Option RideRequest × EngineState :=
  match lookupRider st rider_id with
  | none => (none, st)
  | some rider =>
    let (req, st1) := RequestService.create_request st rider
    (some req, assignOrEnqueue st1 req)

/-- `SimulationEngine.reset`: clear every registry and the queue, counters to 0. -/
def SimulationEngine.reset (_st : EngineState) : EngineState :=
  initialState

/-- `SimulationEngine.get_stats`. -/
def SimulationEngine.get_stats (st : EngineState) : SimulationStats :=
  { totalRequests := st.requests.length,
    completedRides := (st.requests.filter fun r => r.status == RideRequestStatus.completed).length,
    failedRides := 0,
    averageETA := 0,
    activeDrivers := (st.drivers.filter fun d => !(d.status == DriverStatus.offline)).length,
    totalDrivers := st.drivers.length }

/-! ### reachability by public operations -/

/-- One public engine operation together with its arguments. -/
inductive Op where
  | addDriver (x y : Int)
  | removeDriver (i : String)
  | addRider (px py dx dy : Int)
  | removeRider (i : String)
  | createRequest (i : String)
  | advanceTick
  | reset

/-- State transformer of a public operation; errors propagate to the boundary
but the Python engine object keeps all mutations applied before the raise. -/
def applyOp (st : EngineState) : Op → EngineState
  | Op.addDriver x y => (SimulationEngine.add_driver st x y).2
  | Op.removeDriver i => (SimulationEngine.remove_driver st i).2
  | Op.addRider px py dx dy => (SimulationEngine.add_rider st px py dx dy).2
  | Op.removeRider i => (SimulationEngine.remove_rider st i).2
  | Op.createRequest i => (SimulationEngine.create_request st i).2
  | Op.advanceTick => (SimulationEngine.advance_tick st).2
  | Op.reset => SimulationEngine.reset st

/-- The engine state after a sequence of public operations on a fresh engine. -/
def runOps (ops : List Op) : EngineState :=
  ops.foldl applyOp initialState

/-! ### invariant predicates -/

/-- The driver's position lies on the 20×20 grid. -/
def posOK (d : Driver) : Prop :=
  0 ≤ d.x ∧ d.x < DEFAULT_GRID_WIDTH ∧ 0 ≤ d.y ∧ d.y < DEFAULT_GRID_HEIGHT

/-- Whatever movement target the driver carries lies on the grid. -/
def tgtOK (d : Driver) : Prop :=
  (∀ t, d.targetX = some t → 0 ≤ t ∧ t < DEFAULT_GRID_WIDTH) ∧
  (∀ t, d.targetY = some t → 0 ≤ t ∧ t < DEFAULT_GRID_HEIGHT)

/-- Pickup and dropoff of a request lie on the grid. -/
def reqOK (r : RideRequest) : Prop :=
  0 ≤ r.pickup_x ∧ r.pickup_x < DEFAULT_GRID_WIDTH ∧
  0 ≤ r.pickup_y ∧ r.pickup_y < DEFAULT_GRID_HEIGHT ∧
  0 ≤ r.dropoff_x ∧ r.dropoff_x < DEFAULT_GRID_WIDTH ∧
  0 ≤ r.dropoff_y ∧ r.dropoff_y < DEFAULT_GRID_HEIGHT

/-- Pickup and dropoff of a rider lie on the grid. -/
def rdOK (rd : Rider) : Prop :=
  0 ≤ rd.pickup_x ∧ rd.pickup_x < DEFAULT_GRID_WIDTH ∧
  0 ≤ rd.pickup_y ∧ rd.pickup_y < DEFAULT_GRID_HEIGHT ∧
  0 ≤ rd.dropoff_x ∧ rd.dropoff_x < DEFAULT_GRID_WIDTH ∧
  0 ≤ rd.dropoff_y ∧ rd.dropoff_y < DEFAULT_GRID_HEIGHT

/-- The bounds invariant: every driver position and target, every request
pickup/dropoff, and every rider pickup/dropoff is on the grid. -/
def BoundsInv (st : EngineState) : Prop :=
  (∀ d ∈ st.drivers, posOK d ∧ tgtOK d) ∧
  (∀ r ∈ st.requests, reqOK r) ∧
  (∀ rd ∈ st.riders, rdOK rd)

/-- The request-status/driver-pointer coupling on one request:
status `assigned` exactly when `assigned_driver_id` is set. -/
def reqAssignedIff (r : RideRequest) : Prop :=
  r.status = RideRequestStatus.assigned ↔ r.assigned_driver_id.isSome = true

/-- The assignment invariant over the registry. -/
def AssignInv (st : EngineState) : Prop :=
  ∀ r ∈ st.requests, reqAssignedIff r

/-- Looked-up-by-id requests at id `i` carry a driver id (used across the
queue-drain re-notification loop). -/
def QidSome (st : EngineState) (i : String) : Prop :=
  ∀ r, lookupRequest st i = some r → r.assigned_driver_id.isSome = true

/-! ## Theorems -/

/-! ### list helper lemmas -/

theorem mem_updFirst {α} {p : α → Bool} {f : α → α} {l : List α} {x : α}
    (hx : x ∈ updFirst p f l) : x ∈ l ∨ ∃ a, l.find? p = some a ∧ x = f a := by
  induction l with
  | nil => simp [updFirst] at hx
  | cons a l ih =>
    by_cases hpa : p a
    · simp [updFirst, hpa] at hx
      rcases hx with hx | hx
      · exact Or.inr ⟨a, by simp [List.find?_cons_of_pos _ hpa], hx⟩
      · exact Or.inl (List.mem_cons_of_mem _ hx)
    · have hpa' : p a = false := by simpa using hpa
      simp [updFirst, hpa'] at hx
      rcases hx with hx | hx
      · exact Or.inl (by simp [hx])
      · rcases ih hx with h | ⟨b, hb, hxb⟩
        · exact Or.inl (List.mem_cons_of_mem _ h)
        · refine Or.inr ⟨b, ?_, hxb⟩
          rw [List.find?_cons_of_neg _ (by simp [hpa'])]
          exact hb

theorem updFirst_preserves {α} {P : α → Prop} {p : α → Bool} {f : α → α} {l : List α}
    (hf : ∀ a, a ∈ l → P (f a)) (hl : ∀ a ∈ l, P a) :
    ∀ x ∈ updFirst p f l, P x := by
  intro x hx
  rcases mem_updFirst hx with h | ⟨a, ha, hxa⟩
  · exact hl x h
  · exact hxa ▸ hf a (List.mem_of_find?_eq_some ha)

theorem mem_removeFirst {α} {p : α → Bool} {l : List α} {x : α}
    (hx : x ∈ removeFirst p l) : x ∈ l := by
  induction l with
  | nil => simpa [removeFirst] using hx
  | cons a l ih =>
    by_cases hpa : p a
    · simp [removeFirst, hpa] at hx
      exact List.mem_cons_of_mem _ hx
    · have hpa' : p a = false := by simpa using hpa
      simp [removeFirst, hpa'] at hx
      rcases hx with hx | hx
      · simp [hx]
      · exact List.mem_cons_of_mem _ (ih hx)

theorem find?_updFirst_eq {α} {p : α → Bool} {f : α → α}
    (hpf : ∀ a, p a = true → p (f a) = true) (l : List α) :
    (updFirst p f l).find? p = (l.find? p).map f := by
  induction l with
  | nil => simp [updFirst]
  | cons a l ih =>
    by_cases hpa : p a
    · simp [updFirst, hpa, List.find?_cons_of_pos _ (hpf a hpa), List.find?_cons_of_pos _ hpa]
    · have hpa' : p a = false := by simpa using hpa
      simp [updFirst, hpa', List.find?_cons_of_neg _ (ne_true_of_eq_false hpa'), ih]

theorem find?_updFirst_ne {α} {p q : α → Bool} {f : α → α}
    (h1 : ∀ a, q a = true → p a = false) (h2 : ∀ a, p (f a) = p a) (l : List α) :
    (updFirst q f l).find? p = l.find? p := by
  induction l with
  | nil => simp [updFirst]
  | cons a l ih =>
    by_cases hqa : q a
    · have hpa : p a = false := h1 a hqa
      have hpfa : p (f a) = false := by rw [h2]; exact hpa
      rw [updFirst]
      simp only [hqa, if_true]
      rw [List.find?_cons_of_neg _ (ne_true_of_eq_false hpfa),
          List.find?_cons_of_neg _ (ne_true_of_eq_false hpa)]
    · have hqa' : q a = false := by simpa using hqa
      by_cases hpa : p a
      · simp [updFirst, hqa', List.find?_cons_of_pos _ hpa]
      · have hpa' : p a = false := by simpa using hpa
        simp [updFirst, hqa', List.find?_cons_of_neg _ (ne_true_of_eq_false hpa'), ih]

/-! ### sorting / find_best_driver lemmas -/

theorem mem_insertByScore {p x : Driver × Int} {l : List (Driver × Int)}
    (hx : x ∈ insertByScore p l) : x = p ∨ x ∈ l := by
  induction l with
  | nil => simpa [insertByScore] using hx
  | cons q qs ih =>
    by_cases hle : p.2 ≤ q.2
    · rw [insertByScore, if_pos hle] at hx
      rcases List.mem_cons.mp hx with h | h
      · exact Or.inl h
      · exact Or.inr h
    · rw [insertByScore, if_neg hle] at hx
      rcases List.mem_cons.mp hx with h | h
      · exact Or.inr (by simp [h])
      · rcases ih h with h' | h'
        · exact Or.inl h'
        · exact Or.inr (List.mem_cons_of_mem _ h')

theorem mem_sortByScore {x : Driver × Int} {l : List (Driver × Int)}
    (hx : x ∈ sortByScore l) : x ∈ l := by
  induction l with
  | nil => simpa [sortByScore] using hx
  | cons a l ih =>
    have hx' : x ∈ insertByScore a (sortByScore l) := hx
    rcases mem_insertByScore hx' with h | h
    · simp [h]
    · exact List.mem_cons_of_mem _ (ih h)

theorem head?_sortByScore (l : List (Driver × Int)) :
    (sortByScore l).head? = firstMinP l := by
  induction l with
  | nil => simp [sortByScore, firstMinP]
  | cons a l ih =>
    have hstep : sortByScore (a :: l) = insertByScore a (sortByScore l) := rfl
    rw [hstep, firstMinP, ← ih]
    cases hs : sortByScore l with
    | nil => simp [insertByScore]
    | cons q qs =>
      by_cases hle : a.2 ≤ q.2
      · simp [insertByScore, hle]
      · simp [insertByScore, hle]

theorem firstMinP_eq_none {l : List (Driver × Int)} (h : firstMinP l = none) : l = [] := by
  cases l with
  | nil => rfl
  | cons a l =>
    rw [firstMinP] at h
    cases hm : firstMinP l with
    | none => simp [hm] at h
    | some q =>
      rw [hm] at h
      by_cases hle : a.2 ≤ q.2 <;> simp [hle] at h

theorem firstMinP_min {l : List (Driver × Int)} {q : Driver × Int}
    (h : firstMinP l = some q) : ∀ x ∈ l, q.2 ≤ x.2 := by
  induction l generalizing q with
  | nil => simp [firstMinP] at h
  | cons a l ih =>
    rw [firstMinP] at h
    cases hm : firstMinP l with
    | none =>
      rw [hm] at h
      have hl : l = [] := firstMinP_eq_none hm
      subst hl
      simp at h
      intro x hx
      simp at hx
      simp [hx, ← h]
    | some m =>
      rw [hm] at h
      intro x hx
      rcases List.mem_cons.mp hx with hxa | hxl
      · by_cases hle : a.2 ≤ m.2
        · simp [hle] at h
          simp [hxa, ← h]
        · simp [hle] at h
          have hma : m.2 ≤ a.2 := le_of_not_le hle
          rw [← h, hxa]
          exact hma
      · by_cases hle : a.2 ≤ m.2
        · simp [hle] at h
          rw [← h]
          exact le_trans hle (ih hm x hxl)
        · simp [hle] at h
          rw [← h]
          exact ih hm x hxl

theorem firstMinP_first {l : List (Driver × Int)} {q : Driver × Int}
    (h : firstMinP l = some q) :
    ∃ l1 l2, l = l1 ++ q :: l2 ∧ ∀ x ∈ l1, q.2 < x.2 := by
  induction l generalizing q with
  | nil => simp [firstMinP] at h
  | cons a l ih =>
    rw [firstMinP] at h
    cases hm : firstMinP l with
    | none =>
      rw [hm] at h
      simp at h
      exact ⟨[], l, by simp [h], by simp⟩
    | some m =>
      rw [hm] at h
      by_cases hle : a.2 ≤ m.2
      · simp [hle] at h
        exact ⟨[], l, by simp [h], by simp⟩
      · simp [hle] at h
        rcases ih hm with ⟨l1, l2, hsplit, hstrict⟩
        refine ⟨a :: l1, l2, by simp [hsplit, h], ?_⟩
        intro x hx
        rcases List.mem_cons.mp hx with hxa | hxl
        · subst hxa
          rw [← h]
          exact lt_of_not_le hle
        · rw [← h]
          exact hstrict x hxl

theorem find_best_driver_eq (drivers : List Driver) (r : RideRequest) :
    ScoringService.find_best_driver drivers r =
      (firstMinP (drivers.map fun d => (d, ScoringService.calculate_driver_score d r))).map
        Prod.fst := by
  rw [ScoringService.find_best_driver, ← head?_sortByScore]
  cases sortByScore (drivers.map fun d => (d, ScoringService.calculate_driver_score d r)) with
  | nil => rfl
  | cons p ps => rfl

theorem find_best_driver_mem {pool : List Driver} {r : RideRequest} {d : Driver}
    (h : ScoringService.find_best_driver pool r = some d) : d ∈ pool := by
  rw [find_best_driver_eq] at h
  cases hm : firstMinP (pool.map fun d => (d, ScoringService.calculate_driver_score d r)) with
  | none => rw [hm] at h; simp at h
  | some q =>
    rw [hm] at h
    simp at h
    have hq : q ∈ pool.map fun d => (d, ScoringService.calculate_driver_score d r) := by
      rcases firstMinP_first hm with ⟨l1, l2, hsplit, _⟩
      rw [hsplit]
      exact List.mem_append_right _ (List.mem_cons_self _ _)
    rcases List.mem_map.mp hq with ⟨d', hd', hq'⟩
    have : q.1 = d' := by rw [← hq']
    rw [← h, this]
    exact hd'

theorem map_eq_append_cons {α β} {f : α → β} {l : List α} {s1 : List β} {b : β} {s2 : List β}
    (h : l.map f = s1 ++ b :: s2) :
    ∃ l1 x l2, l = l1 ++ x :: l2 ∧ l1.map f = s1 ∧ f x = b := by
  induction l generalizing s1 with
  | nil => simp at h
  | cons a l ih =>
    cases s1 with
    | nil =>
      simp at h
      exact ⟨[], a, l, rfl, rfl, h.1⟩
    | cons c s1' =>
      simp at h
      rcases ih h.2 with ⟨l1, x, l2, hl, hm, hfx⟩
      exact ⟨a :: l1, x, l2, by simp [hl], by simp [hm, h.1], hfx⟩

/-- C5: the driver score is
`eta(driver position, request pickup, speed 1) + totalTrips * 10 - min(idleTicks, 50)`;
consequently two equidistant drivers (eta 4, idleTicks 0) with 5 versus 0 total
trips score 54 versus 4, so the driver with fewer trips wins strictly. -/
theorem c5_score_formula :
    (∀ (d : Driver) (r : RideRequest),
      ScoringService.calculate_driver_score d r =
        (ScoringService.calculate_eta d.x d.y r.pickup_x r.pickup_y 1 : Int)
          + (d.totalTrips : Int) * 10 - min (d.idleTicks : Int) 50) ∧
    (∀ (d1 d2 : Driver) (r : RideRequest),
      ScoringService.calculate_eta d1.x d1.y r.pickup_x r.pickup_y 1 = 4 →
      ScoringService.calculate_eta d2.x d2.y r.pickup_x r.pickup_y 1 = 4 →
      d1.idleTicks = 0 → d2.idleTicks = 0 → d1.totalTrips = 5 → d2.totalTrips = 0 →
      ScoringService.calculate_driver_score d2 r < ScoringService.calculate_driver_score d1 r) := by
  constructor
  · intro d r
    rfl
  · intro d1 d2 r h1 h2 hi1 hi2 ht1 ht2
    rw [ScoringService.calculate_driver_score, ScoringService.calculate_driver_score,
        h1, h2, hi1, hi2, ht1, ht2]
    rw [FAIRNESS_BONUS_MULTIPLIER, MAX_IDLE_TIME_BONUS]
    norm_num

/-- Closed witness for C5 at an explicit driver pair equidistant (eta 4) from
the pickup. -/
theorem c5_witness :
    ScoringService.calculate_driver_score
        ⟨"Driver 2", 0, 4, DriverStatus.available, 0, 0, none, none, none, none⟩
        ⟨"Request 1", "Rider 1", RideRequestStatus.waiting, 0, 0, 0, 1, none⟩ <
      ScoringService.calculate_driver_score
        ⟨"Driver 1", 4, 0, DriverStatus.available, 5, 0, none, none, none, none⟩
        ⟨"Request 1", "Rider 1", RideRequestStatus.waiting, 0, 0, 0, 1, none⟩ :=
  c5_score_formula.2
    ⟨"Driver 1", 4, 0, DriverStatus.available, 5, 0, none, none, none, none⟩
    ⟨"Driver 2", 0, 4, DriverStatus.available, 0, 0, none, none, none, none⟩
    ⟨"Request 1", "Rider 1", RideRequestStatus.waiting, 0, 0, 0, 1, none⟩
    (by decide) (by decide) rfl rfl rfl rfl

/-- C6: `find_best_driver` on a non-empty candidate list returns a driver of
minimum score and, among tied minima, the one appearing first in the input
order (everything before it scores strictly worse); the empty list yields the
no-candidates condition (the raised `ValueError`, embedded as `none`). -/
theorem c6_find_best_first_minimum :
    (∀ (drivers : List Driver) (r : RideRequest), drivers ≠ [] →
      ∃ d l1 l2, ScoringService.find_best_driver drivers r = some d ∧
        drivers = l1 ++ d :: l2 ∧
        (∀ d' ∈ drivers,
          ScoringService.calculate_driver_score d r ≤
            ScoringService.calculate_driver_score d' r) ∧
        (∀ d' ∈ l1,
          ScoringService.calculate_driver_score d r <
            ScoringService.calculate_driver_score d' r)) ∧
    (∀ r : RideRequest, ScoringService.find_best_driver [] r = none) := by
  constructor
  · intro drivers r hne
    rw [find_best_driver_eq]
    cases hm : firstMinP (drivers.map fun d => (d, ScoringService.calculate_driver_score d r)) with
    | none =>
      have h0 := firstMinP_eq_none hm
      have : drivers = [] := by
        cases drivers with
        | nil => rfl
        | cons a l => simp at h0
      exact absurd this hne
    | some q =>
      rcases firstMinP_first hm with ⟨s1, s2, hsplit, hstrict⟩
      rcases map_eq_append_cons hsplit with ⟨l1, x, l2, hdl, hml, hfx⟩
      have hq1 : q.1 = x := by rw [← hfx]
      have hq2 : q.2 = ScoringService.calculate_driver_score x r := by rw [← hfx]
      refine ⟨x, l1, l2, by simp [hq1], hdl, ?_, ?_⟩
      · intro d' hd'
        have : (d', ScoringService.calculate_driver_score d' r) ∈
            drivers.map fun d => (d, ScoringService.calculate_driver_score d r) :=
          List.mem_map.mpr ⟨d', hd', rfl⟩
        have := firstMinP_min hm _ this
        rw [hq2] at this
        exact this
      · intro d' hd'
        have hmem : (d', ScoringService.calculate_driver_score d' r) ∈ s1 := by
          rw [← hml]
          exact List.mem_map.mpr ⟨d', hd', rfl⟩
        have := hstrict _ hmem
        rw [hq2] at this
        exact this
  · intro r
    rfl

/-- Closed witness for C6: three concrete drivers scoring [5, 3, 3] against a
concrete request; the minimum is attained first by the second driver, and
`find_best_driver` indeed returns it. -/
theorem c6_witness :
    (∃ d l1 l2,
      ScoringService.find_best_driver
          [⟨"Driver 1", 5, 0, DriverStatus.available, 0, 0, none, none, none, none⟩,
           ⟨"Driver 2", 3, 0, DriverStatus.available, 0, 0, none, none, none, none⟩,
           ⟨"Driver 3", 0, 3, DriverStatus.available, 0, 0, none, none, none, none⟩]
          ⟨"Request 1", "Rider 1", RideRequestStatus.waiting, 0, 0, 0, 1, none⟩ = some d ∧
      [⟨"Driver 1", 5, 0, DriverStatus.available, 0, 0, none, none, none, none⟩,
       ⟨"Driver 2", 3, 0, DriverStatus.available, 0, 0, none, none, none, none⟩,
       ⟨"Driver 3", 0, 3, DriverStatus.available, 0, 0, none, none, none, none⟩] =
        l1 ++ d :: l2 ∧
      (∀ d' ∈ [⟨"Driver 1", 5, 0, DriverStatus.available, 0, 0, none, none, none, none⟩,
               ⟨"Driver 2", 3, 0, DriverStatus.available, 0, 0, none, none, none, none⟩,
               (⟨"Driver 3", 0, 3, DriverStatus.available, 0, 0, none, none, none, none⟩ : Driver)],
        ScoringService.calculate_driver_score d
            ⟨"Request 1", "Rider 1", RideRequestStatus.waiting, 0, 0, 0, 1, none⟩ ≤
          ScoringService.calculate_driver_score d'
            ⟨"Request 1", "Rider 1", RideRequestStatus.waiting, 0, 0, 0, 1, none⟩) ∧
      (∀ d' ∈ l1,
        ScoringService.calculate_driver_score d
            ⟨"Request 1", "Rider 1", RideRequestStatus.waiting, 0, 0, 0, 1, none⟩ <
          ScoringService.calculate_driver_score d'
            ⟨"Request 1", "Rider 1", RideRequestStatus.waiting, 0, 0, 0, 1, none⟩)) ∧
    ScoringService.find_best_driver
        [⟨"Driver 1", 5, 0, DriverStatus.available, 0, 0, none, none, none, none⟩,
         ⟨"Driver 2", 3, 0, DriverStatus.available, 0, 0, none, none, none, none⟩,
         ⟨"Driver 3", 0, 3, DriverStatus.available, 0, 0, none, none, none, none⟩]
        ⟨"Request 1", "Rider 1", RideRequestStatus.waiting, 0, 0, 0, 1, none⟩ =
      some ⟨"Driver 2", 3, 0, DriverStatus.available, 0, 0, none, none, none, none⟩ :=
  ⟨c6_find_best_first_minimum.1
      [⟨"Driver 1", 5, 0, DriverStatus.available, 0, 0, none, none, none, none⟩,
       ⟨"Driver 2", 3, 0, DriverStatus.available, 0, 0, none, none, none, none⟩,
       ⟨"Driver 3", 0, 3, DriverStatus.available, 0, 0, none, none, none, none⟩]
      ⟨"Request 1", "Rider 1", RideRequestStatus.waiting, 0, 0, 0, 1, none⟩
      (by decide),
   by decide⟩

theorem drainAssignments_mem_pool :
    ∀ (q : List RideRequest) (pool : List Driver) (pr : RideRequest × Driver),
      pr ∈ drainAssignments q pool → pr.1 ∈ q ∧ pr.2 ∈ pool := by
  intro q
  induction q with
  | nil =>
    intro pool pr h
    cases pool <;> simp [drainAssignments] at h
  | cons r rs ih =>
    intro pool pr h
    cases pool with
    | nil => simp [drainAssignments] at h
    | cons p ps =>
      simp only [drainAssignments] at h
      cases hfb : ScoringService.find_best_driver (p :: ps) r with
      | none =>
        rw [hfb] at h
        rcases ih _ pr h with ⟨h1, h2⟩
        exact ⟨List.mem_cons_of_mem _ h1, h2⟩
      | some d =>
        rw [hfb] at h
        rcases List.mem_cons.mp h with h1 | h1
        · constructor
          · rw [h1]; exact List.mem_cons_self _ _
          · rw [h1]; exact find_best_driver_mem hfb
        · rcases ih _ pr h1 with ⟨h2, h3⟩
          exact ⟨List.mem_cons_of_mem _ h2, List.mem_of_mem_filter h3⟩

theorem drainAssignments_ids_nodup :
    ∀ (q : List RideRequest) (pool : List Driver),
      ((drainAssignments q pool).map fun pr => pr.2.id).Nodup := by
  intro q
  induction q with
  | nil =>
    intro pool
    cases pool <;> simp [drainAssignments]
  | cons r rs ih =>
    intro pool
    cases pool with
    | nil => simp [drainAssignments]
    | cons p ps =>
      simp only [drainAssignments]
      cases hfb : ScoringService.find_best_driver (p :: ps) r with
      | none => exact ih _
      | some d =>
        simp only [List.map_cons, List.nodup_cons]
        constructor
        · intro hmem
          rcases List.mem_map.mp hmem with ⟨pr, hpr, hid⟩
          have h2 := (drainAssignments_mem_pool _ _ _ hpr).2
          have h3 := List.mem_filter.mp h2
          simp at h3
          exact h3.2 hid
        · exact ih _

/-- C7: one call to `QueueService.process_queue` never books the same driver
twice: the driver ids attached to the returned processed (request, driver)
assignments are pairwise distinct, for every queue state and every supplied
available-driver pool. -/
theorem c7_no_double_booking (st : EngineState) (pool : List Driver) :
    (((QueueService.process_queue st pool).2).map fun pr => pr.2.id).Nodup := by
  have h : (QueueService.process_queue st pool).2 =
      drainAssignments (queueSnapshot st) pool := rfl
  rw [h]
  exact drainAssignments_ids_nodup _ _

theorem nat_ceilDiv_eq_ceil (d s : Nat) (hs : 1 ≤ s) :
    (((d + s - 1) / s : Nat) : Int) = Int.ceil ((d : ℚ) / (s : ℚ)) := by
  have hs0 : 0 < s := hs
  have hsq : (0 : ℚ) < (s : ℚ) := by exact_mod_cast hs0
  obtain ⟨q, hqdef⟩ : ∃ q, (d + s - 1) / s = q := ⟨_, rfl⟩
  have h1 : q * s ≤ d + s - 1 := hqdef ▸ Nat.div_mul_le_self _ _
  have h2 : d + s - 1 < (q + 1) * s := by
    have hlt : (d + s - 1) / s < q + 1 := by omega
    exact (Nat.div_lt_iff_lt_mul hs0).mp hlt
  have h3 : d ≤ q * s := by
    rw [Nat.add_mul, Nat.one_mul] at h2
    omega
  have h4 : q * s < d + s := by omega
  rw [hqdef]
  symm
  rw [Int.ceil_eq_iff]
  constructor
  · rw [lt_div_iff hsq]
    have hq4 : (q : ℚ) * (s : ℚ) < (d : ℚ) + (s : ℚ) := by exact_mod_cast h4
    push_cast
    nlinarith
  · rw [div_le_iff hsq]
    exact_mod_cast h3

/-- C8: `calculate_eta` is the integer ceiling of the Manhattan distance
divided by the speed (for speed at least 1); it is symmetric under swapping
the endpoints, and a distance of 5 at speed 2 gives eta 3. -/
theorem c8_eta_ceiling :
    ∀ (fx fy tx ty : Int) (s : Nat), 1 ≤ s →
      ((ScoringService.calculate_eta fx fy tx ty s : Int) =
        Int.ceil ((ScoringService.calculate_distance fx fy tx ty : ℚ) / (s : ℚ))) ∧
      ScoringService.calculate_eta fx fy tx ty s = ScoringService.calculate_eta tx ty fx fy s ∧
      (ScoringService.calculate_distance fx fy tx ty = 5 → s = 2 →
        ScoringService.calculate_eta fx fy tx ty s = 3) := by
  intro fx fy tx ty s hs
  have hsymm : ScoringService.calculate_distance fx fy tx ty =
      ScoringService.calculate_distance tx ty fx fy := by
    rw [ScoringService.calculate_distance, ScoringService.calculate_distance]
    omega
  refine ⟨nat_ceilDiv_eq_ceil _ s hs, ?_, ?_⟩
  · rw [ScoringService.calculate_eta, ScoringService.calculate_eta, hsymm]
  · intro h5 h2
    rw [ScoringService.calculate_eta, h5, h2]

/-- Closed witness for C8 at the endpoints (0,0)-(2,3) (distance 5) and speed
2: eta is 3 and symmetric. -/
theorem c8_witness :
    ((ScoringService.calculate_eta 0 0 2 3 2 : Int) =
      Int.ceil ((ScoringService.calculate_distance 0 0 2 3 : ℚ) / (2 : ℚ))) ∧
    ScoringService.calculate_eta 0 0 2 3 2 = ScoringService.calculate_eta 2 3 0 0 2 ∧
    ScoringService.calculate_eta 0 0 2 3 2 = 3 := by
  have h := c8_eta_ceiling 0 0 2 3 2 (by decide)
  exact ⟨h.1, h.2.1, h.2.2 (by decide) rfl⟩

/-- C1: evaluating the code at the failing scenario.  One driver at (0,0), one
rider with pickup (0,0) and dropoff (0,1): the request is assigned on
creation, the first tick flips the phase to `to_dropoff`, the second tick
completes the trip.  `_complete_trip` marks the request completed but then
`remove_rider` → `remove_requests_for_rider` deletes it from the registry, so
no completed request remains and `get_stats` reports `completedRides = 0`
(the driver's `totalTrips = 1` confirms the completion happened). -/
theorem c1_completed_request_removed :
    ((lookupDriver
        (runOps [Op.addDriver 0 0, Op.addRider 0 0 0 1, Op.advanceTick, Op.advanceTick])
        "Driver 1").map fun d => (d.status, d.totalTrips)) =
      some (DriverStatus.available, 1) ∧
    (runOps [Op.addDriver 0 0, Op.addRider 0 0 0 1, Op.advanceTick, Op.advanceTick]).requests
      = [] ∧
    (SimulationEngine.get_stats
      (runOps [Op.addDriver 0 0, Op.addRider 0 0 0 1, Op.advanceTick, Op.advanceTick])).completedRides
      = 0 ∧
    (SimulationEngine.get_stats
      (runOps [Op.addDriver 0 0, Op.addRider 0 0 0 1, Op.advanceTick, Op.advanceTick])).totalRequests
      = 0 := by
  decide

/-- C2: evaluating the code at the failing scenario.  With one waiting request
in the queue (added with zero drivers), `add_driver(0,0)` does drain the queue
(the request becomes `assigned` to the new driver) but the operation itself
raises `AttributeError` out of `_process_queue` instead of returning the new
driver. -/
theorem c2_add_driver_raises :
    (runOps [Op.addRider 1 1 2 2]).queue = ["Request 1"] ∧
    (SimulationEngine.add_driver (runOps [Op.addRider 1 1 2 2]) 0 0).1 =
      Except.error PyError.attrError ∧
    ((SimulationEngine.add_driver (runOps [Op.addRider 1 1 2 2]) 0 0).2.requests.map
       fun r => (r.id, r.status, r.assigned_driver_id)) =
      [("Request 1", RideRequestStatus.assigned, some "Driver 1")] := by
  exact ⟨rfl, rfl, rfl⟩

/-- C3 counterexample: in the same completed-trip scenario as C1, the second
`advance_tick` completes the driver's trip, the queue is empty so the driver is
not reassigned, and at the end of the call the driver's `idleTicks` is 1 (the
idle-increment loop re-reads the available set after the movement phase and so
includes the just-completed driver), not 0 as the claim states. -/
theorem c3_counterexample :
    ((lookupDriver
        (runOps [Op.addDriver 0 0, Op.addRider 0 0 0 1, Op.advanceTick, Op.advanceTick])
        "Driver 1").map fun d => (d.status, d.totalTrips, d.idleTicks)) =
      some (DriverStatus.available, 1, 1) := by
  decide

/-- C4 counterexample: after `add_driver(0,0)`, `add_rider((0,1),(0,2))` (the
request is immediately assigned) and `remove_driver("Driver 1")`, the registry
holds a request with status `assigned` and `assigned_driver_id = "Driver 1"`
while the driver registry is empty — so no driver has `assignedRequestId`
equal to the request's id, refuting the claimed three-way equivalence. -/
theorem c4_counterexample :
    ((runOps [Op.addDriver 0 0, Op.addRider 0 1 0 2, Op.removeDriver "Driver 1"]).requests.map
       fun r => (r.id, r.status, r.assigned_driver_id)) =
      [("Request 1", RideRequestStatus.assigned, some "Driver 1")] ∧
    (runOps [Op.addDriver 0 0, Op.addRider 0 1 0 2, Op.removeDriver "Driver 1"]).drivers
      = [] := by
  decide

/-- C9: a bounds-violating `add_driver` or `add_rider` (either point) fails
with the out-of-bounds condition and leaves the entire engine state — all
registries, the queue, and every id counter — exactly as it was. -/
theorem c9_out_of_bounds_atomic :
    (∀ (st : EngineState) (x y : Int), is_valid_position x y = false →
      SimulationEngine.add_driver st x y = (Except.error PyError.outOfBounds, st)) ∧
    (∀ (st : EngineState) (px py dx dy : Int),
      is_valid_position px py = false ∨ is_valid_position dx dy = false →
      SimulationEngine.add_rider st px py dx dy = (Except.error PyError.outOfBounds, st)) := by
  constructor
  · intro st x y h
    rw [SimulationEngine.add_driver, DriverService.add_driver]
    rw [h]
    rfl
  · intro st px py dx dy h
    rw [SimulationEngine.add_rider, RiderService.add_rider]
    rcases h with h | h
    · rw [h]
      rfl
    · cases hv : is_valid_position px py
      · rfl
      · rw [h]
        rfl

/-- Closed witness for C9: `add_driver(20,5)` on the 20×20 grid, and
`add_rider` with dropoff (20,5), both fail atomically on the fresh engine. -/
theorem c9_witness :
    SimulationEngine.add_driver initialState 20 5 =
      (Except.error PyError.outOfBounds, initialState) ∧
    SimulationEngine.add_rider initialState 0 0 20 5 =
      (Except.error PyError.outOfBounds, initialState) :=
  ⟨c9_out_of_bounds_atomic.1 initialState 20 5 (by decide),
   c9_out_of_bounds_atomic.2 initialState 0 0 20 5 (Or.inr (by decide))⟩

/-! ### preservation of the assignment invariant (C4, amended) -/

theorem create_request_requests (st : EngineState) (rider : Rider) :
    (RequestService.create_request st rider).2.requests =
      st.requests ++ [(RequestService.create_request st rider).1] := rfl

theorem remove_rider_requests (st : EngineState) (rid : String) :
    (SimulationEngine.remove_rider st rid).2.requests =
      st.requests.filter fun r => !(r.rider_id == rid) := by
  rw [SimulationEngine.remove_rider]
  cases lookupRider
      { RequestService.remove_requests_for_rider st rid with
        queue := (RequestService.remove_requests_for_rider st rid).queue.filter fun qid =>
          !(((st.requests.filter fun r => r.rider_id == rid).map fun r => r.id).contains qid) }
      rid <;> rfl

theorem applyAssignment_assignInv {st : EngineState} {pr : RideRequest × Driver}
    (h : AssignInv st) : AssignInv (applyAssignment st pr) := by
  intro x hx
  have hx' : x ∈ updFirst (fun r => r.id == pr.1.id)
      (fun r => { r with status := RideRequestStatus.assigned,
                         assigned_driver_id := some pr.2.id }) st.requests := hx
  rcases mem_updFirst hx' with h1 | ⟨a, _, hxa⟩
  · exact h x h1
  · subst hxa
    simp [reqAssignedIff]

theorem foldl_applyAssignment_assignInv :
    ∀ (as : List (RideRequest × Driver)) (st : EngineState),
      AssignInv st → AssignInv (as.foldl applyAssignment st) := by
  intro as
  induction as with
  | nil => intro st h; exact h
  | cons a as ih => intro st h; exact ih _ (applyAssignment_assignInv h)

theorem lookupRequest_applyAssignment_self (st : EngineState) (pr : RideRequest × Driver) :
    lookupRequest (applyAssignment st pr) pr.1.id =
      (lookupRequest st pr.1.id).map fun r =>
        { r with status := RideRequestStatus.assigned,
                 assigned_driver_id := some pr.2.id } :=
  @find?_updFirst_eq RideRequest (fun r => r.id == pr.1.id)
    (fun r => { r with status := RideRequestStatus.assigned,
                       assigned_driver_id := some pr.2.id })
    (fun _ ha => ha) st.requests

theorem lookupRequest_applyAssignment_ne (st : EngineState) (pr : RideRequest × Driver)
    {i : String} (hne : pr.1.id ≠ i) :
    lookupRequest (applyAssignment st pr) i = lookupRequest st i := by
  apply find?_updFirst_ne
  · intro a ha
    have ha' : a.id = pr.1.id := by simpa using ha
    simp [ha']
    exact hne
  · intro a
    rfl

theorem QidSome_applyAssignment_self (st : EngineState) (pr : RideRequest × Driver) :
    QidSome (applyAssignment st pr) pr.1.id := by
  intro r hr
  rw [lookupRequest_applyAssignment_self] at hr
  cases hl : lookupRequest st pr.1.id with
  | none => rw [hl] at hr; simp at hr
  | some a =>
    rw [hl] at hr
    simp at hr
    rw [← hr]
    rfl

theorem QidSome_applyAssignment_pres {st : EngineState} {i : String}
    (pr : RideRequest × Driver) (h : QidSome st i) : QidSome (applyAssignment st pr) i := by
  by_cases hid : pr.1.id = i
  · subst hid
    exact QidSome_applyAssignment_self st pr
  · intro r hr
    rw [lookupRequest_applyAssignment_ne st pr hid] at hr
    exact h r hr

theorem QidSome_foldl_pres :
    ∀ (as : List (RideRequest × Driver)) (st : EngineState) (i : String),
      QidSome st i → QidSome (as.foldl applyAssignment st) i := by
  intro as
  induction as with
  | nil => intro st i h; exact h
  | cons a as ih => intro st i h; exact ih _ _ (QidSome_applyAssignment_pres a h)

theorem QidSome_foldl_mem :
    ∀ (as : List (RideRequest × Driver)) (st : EngineState) (pr : RideRequest × Driver),
      pr ∈ as → QidSome (as.foldl applyAssignment st) pr.1.id := by
  intro as
  induction as with
  | nil => intro st pr h; simp at h
  | cons a as ih =>
    intro st pr h
    rcases List.mem_cons.mp h with h1 | h1
    · subst h1
      exact QidSome_foldl_pres as _ _ (QidSome_applyAssignment_self st pr)
    · exact ih _ pr h1

theorem process_queue_assignInv {st : EngineState} (h : AssignInv st) :
    AssignInv (SimulationEngine.process_queue st).2 := by
  rw [SimulationEngine.process_queue, QueueService.process_queue]
  cases has : drainAssignments (queueSnapshot st) (get_available_drivers st) with
  | nil =>
    simp only [has]
    exact h
  | cons pr prs =>
    simp only [has]
    intro x hx
    have hfold : AssignInv ((pr :: prs).foldl applyAssignment st) :=
      foldl_applyAssignment_assignInv _ _ h
    have hq : QidSome ((pr :: prs).foldl applyAssignment st) pr.1.id :=
      QidSome_foldl_mem _ _ pr (List.mem_cons_self _ _)
    have hx' : x ∈ updFirst (fun r => r.id == pr.1.id)
        (fun r => { r with status := RideRequestStatus.assigned })
        ((pr :: prs).foldl applyAssignment st).requests := hx
    rcases mem_updFirst hx' with h1 | ⟨a, ha, hxa⟩
    · exact hfold x h1
    · subst hxa
      have hsome := hq a ha
      rw [reqAssignedIff]
      simp
      exact hsome

theorem create_request_assignInv {st : EngineState} {rider : Rider} (h : AssignInv st) :
    AssignInv (RequestService.create_request st rider).2 := by
  intro x hx
  have hx' : x ∈ st.requests ++ [(RequestService.create_request st rider).1] := hx
  rcases List.mem_append.mp hx' with h1 | h1
  · exact h x h1
  · have hx1 : x = (RequestService.create_request st rider).1 := by simpa using h1
    subst hx1
    simp [reqAssignedIff, RequestService.create_request]

theorem try_assign_assignInv {st : EngineState} {req : RideRequest} (h : AssignInv st) :
    AssignInv (SimulationEngine.try_assign_request st req).2 := by
  rw [SimulationEngine.try_assign_request]
  cases hfb : ScoringService.find_best_driver (get_available_drivers st) req with
  | none => exact h
  | some d => exact applyAssignment_assignInv h

theorem assignOrEnqueue_assignInv {st : EngineState} {req : RideRequest} (h : AssignInv st) :
    AssignInv (assignOrEnqueue st req) := by
  rw [assignOrEnqueue]
  rcases hta : SimulationEngine.try_assign_request st req with ⟨b, st1⟩
  have h1 : AssignInv st1 := by
    have h2 := @try_assign_assignInv st req h
    rw [hta] at h2
    exact h2
  cases b
  · exact h1
  · exact h1

theorem add_rider_assignInv {st : EngineState} {px py dx dy : Int} (h : AssignInv st) :
    AssignInv (SimulationEngine.add_rider st px py dx dy).2 := by
  rw [SimulationEngine.add_rider, RiderService.add_rider]
  cases hv1 : is_valid_position px py with
  | false => exact h
  | true =>
    cases hv2 : is_valid_position dx dy with
    | false => exact h
    | true => exact assignOrEnqueue_assignInv (create_request_assignInv h)

theorem create_request_op_assignInv {st : EngineState} {rid : String} (h : AssignInv st) :
    AssignInv (SimulationEngine.create_request st rid).2 := by
  rw [SimulationEngine.create_request]
  cases hlr : lookupRider st rid with
  | none => exact h
  | some rider => exact assignOrEnqueue_assignInv (create_request_assignInv h)

theorem remove_rider_assignInv {st : EngineState} {rid : String} (h : AssignInv st) :
    AssignInv (SimulationEngine.remove_rider st rid).2 := by
  intro x hx
  rw [remove_rider_requests] at hx
  exact h x (List.mem_filter.mp hx).1

theorem remove_driver_assignInv {st : EngineState} {i : String} (h : AssignInv st) :
    AssignInv (SimulationEngine.remove_driver st i).2 := by
  rw [SimulationEngine.remove_driver]
  cases lookupDriver st i with
  | none => exact h
  | some d => exact h

theorem add_driver_svc_requests (st : EngineState) (x y : Int) :
    (DriverService.add_driver st x y).2.requests = st.requests := by
  rw [DriverService.add_driver]
  split <;> rfl

theorem add_driver_assignInv {st : EngineState} {x y : Int} (h : AssignInv st) :
    AssignInv (SimulationEngine.add_driver st x y).2 := by
  rcases hda : DriverService.add_driver st x y with ⟨r, st1⟩
  have h1 : AssignInv st1 := by
    intro q hq
    apply h
    have hr : st1.requests = st.requests := by
      have := add_driver_svc_requests st x y
      rw [hda] at this
      exact this
    rw [← hr]
    exact hq
  rw [SimulationEngine.add_driver, hda]
  cases r with
  | error e => exact h1
  | ok d =>
    show AssignInv ((match SimulationEngine.process_queue st1 with
      | (some e, st2) => (Except.error e, st2)
      | (none, st2) => (Except.ok d, st2)).2)
    rcases hpq : SimulationEngine.process_queue st1 with ⟨e, st2⟩
    have h2 := process_queue_assignInv h1
    rw [hpq] at h2
    cases e
    · exact h2
    · exact h2

theorem complete_trip_assignInv {st : EngineState} {i : String} {req : RideRequest}
    (h : AssignInv st) (hreq : lookupRequest st req.id = some req) :
    AssignInv (SimulationEngine.complete_trip st i req).2 := by
  rw [SimulationEngine.complete_trip]
  apply process_queue_assignInv
  intro x hx
  rw [remove_rider_requests] at hx
  have hx1 := List.mem_filter.mp hx
  have hx2 : x ∈ updFirst (fun r => r.id == req.id)
      (fun r => { r with status := RideRequestStatus.completed }) st.requests := hx1.1
  rcases mem_updFirst hx2 with h1 | ⟨a, ha, hxa⟩
  · exact h x h1
  · have hfind : st.requests.find? (fun r => r.id == req.id) = some req := hreq
    rw [hfind] at ha
    have haa : a = req := by
      have := Option.some.inj ha
      exact this.symm
    subst haa
    have hc := hx1.2
    rw [hxa] at hc
    simp at hc

theorem move_one_step_assignInv {st : EngineState} {i : String} (h : AssignInv st) :
    AssignInv (SimulationEngine.move_driver_one_step st i).2 := by
  rw [SimulationEngine.move_driver_one_step]
  cases hld : lookupDriver st i with
  | none => exact h
  | some d0 =>
    have h1 : AssignInv (updFirstDriver st i movePos) := h
    dsimp only
    cases htx : (movePos d0).targetX with
    | none =>
      cases hty : (movePos d0).targetY with
      | none => exact h1
      | some ty => exact h1
    | some tx =>
      cases hty : (movePos d0).targetY with
      | none => exact h1
      | some ty =>
        dsimp only
        by_cases hpos : ((movePos d0).x == tx && (movePos d0).y == ty) = true
        · rw [if_pos hpos]
          cases hri : (movePos d0).assignedRequestId with
          | none => exact h1
          | some rid =>
            dsimp only
            cases hlr : lookupRequest (updFirstDriver st i movePos) rid with
            | none => exact h1
            | some req =>
              dsimp only
              cases hph : (movePos d0).tripPhase with
              | none => exact h1
              | some ph =>
                cases ph with
                | to_pickup => exact h1
                | to_dropoff =>
                  apply complete_trip_assignInv h1
                  have hfind : (updFirstDriver st i movePos).requests.find?
                      (fun r => r.id == rid) = some req := hlr
                  have hid' : req.id = rid := by simpa using List.find?_some hfind
                  rw [hid']
                  exact hlr
        · rw [if_neg hpos]
          exact h1

theorem runBusy_assignInv :
    ∀ (ids : List String) (st : EngineState), AssignInv st → AssignInv (runBusy st ids).2 := by
  intro ids
  induction ids with
  | nil => intro st h; exact h
  | cons i rest ih =>
    intro st h
    rw [runBusy]
    rcases hms : SimulationEngine.move_driver_one_step st i with ⟨e, st1⟩
    have h1 : AssignInv st1 := by
      have h2 := @move_one_step_assignInv st i h
      rw [hms] at h2
      exact h2
    cases e with
    | none => exact ih _ h1
    | some e => exact h1

theorem advance_tick_assignInv {st : EngineState} (h : AssignInv st) :
    AssignInv (SimulationEngine.advance_tick st).2 := by
  rw [SimulationEngine.advance_tick]
  rcases hrb : runBusy st (busyIds st) with ⟨e, st1⟩
  have h1 : AssignInv st1 := by
    have h2 := runBusy_assignInv (busyIds st) st h
    rw [hrb] at h2
    exact h2
  cases e with
  | some e => exact h1
  | none =>
    have h2 : AssignInv (incrementIdles st1) := h1
    exact process_queue_assignInv h2

theorem applyOp_assignInv (st : EngineState) (op : Op) (h : AssignInv st) :
    AssignInv (applyOp st op) := by
  cases op with
  | addDriver x y => exact add_driver_assignInv h
  | removeDriver i => exact remove_driver_assignInv h
  | addRider px py dx dy => exact add_rider_assignInv h
  | removeRider i => exact remove_rider_assignInv h
  | createRequest i => exact create_request_op_assignInv h
  | advanceTick => exact advance_tick_assignInv h
  | reset => intro r hr; exact absurd hr (List.not_mem_nil r)

theorem runOps_assignInv (ops : List Op) : AssignInv (runOps ops) := by
  rw [runOps]
  have hgen : ∀ (l : List Op) (st : EngineState), AssignInv st → AssignInv (l.foldl applyOp st) := by
    intro l
    induction l with
    | nil => intro st h; exact h
    | cons op l ih => intro st h; exact ih _ (applyOp_assignInv _ _ h)
  apply hgen
  intro r hr
  exact absurd hr (List.not_mem_nil r)

/-- C4, amended: in every state reachable by public operations, a registry
request has status `assigned` exactly when its `assigned_driver_id` is set.
(The claimed third equivalence — that some driver then carries this request's
id — fails after `remove_driver`, see the counterexample.) -/
theorem c4_amended_assigned_iff (ops : List Op) :
    ∀ r ∈ (runOps ops).requests,
      (r.status = RideRequestStatus.assigned ↔ r.assigned_driver_id.isSome = true) :=
  runOps_assignInv ops

/-- Closed witness for the amended C4 at the reachable state
`[add_driver(0,0), add_rider((0,1),(0,2))]` and its assigned request. -/
theorem c4_amended_witness :
    (⟨"Request 1", "Rider 1", RideRequestStatus.assigned, 0, 1, 0, 2,
        some "Driver 1"⟩ : RideRequest).status = RideRequestStatus.assigned ↔
      (⟨"Request 1", "Rider 1", RideRequestStatus.assigned, 0, 1, 0, 2,
        some "Driver 1"⟩ : RideRequest).assigned_driver_id.isSome = true :=
  c4_amended_assigned_iff [Op.addDriver 0 0, Op.addRider 0 1 0 2]
    ⟨"Request 1", "Rider 1", RideRequestStatus.assigned, 0, 1, 0, 2, some "Driver 1"⟩
    (by decide)

/-! ### preservation of the grid-bounds invariant (C10) -/

theorem movePos_pointwise {d : Driver} (hp : posOK d) (ht : tgtOK d) :
    posOK (movePos d) ∧ tgtOK (movePos d) := by
  rcases ht with ⟨htX, htY⟩
  rw [movePos]
  cases htx : d.targetX with
  | none =>
    cases hty : d.targetY with
    | none => exact ⟨hp, htX, htY⟩
    | some ty => exact ⟨hp, htX, htY⟩
  | some tx =>
    cases hty : d.targetY with
    | none => exact ⟨hp, htX, htY⟩
    | some ty =>
      dsimp only
      have hbx := htX tx htx
      have hby := htY ty hty
      constructor
      · rcases hp with ⟨h1, h2, h3, h4⟩
        simp only [DEFAULT_GRID_WIDTH, DEFAULT_GRID_HEIGHT] at h2 h4 hbx hby
        simp only [posOK, DEFAULT_GRID_WIDTH, DEFAULT_GRID_HEIGHT]
        split_ifs <;> omega
      · exact ⟨fun t hteq => by cases hteq; exact hbx,
               fun t hteq => by cases hteq; exact hby⟩

theorem applyAssignment_boundsInv {st : EngineState} {pr : RideRequest × Driver}
    (h : BoundsInv st) (hreq : reqOK pr.1) : BoundsInv (applyAssignment st pr) := by
  rcases h with ⟨hd, hr, hrd⟩
  refine ⟨?_, ?_, hrd⟩
  · intro x hx
    have hx' : x ∈ updFirst (fun d => d.id == pr.2.id)
        (fun d => { d with status := DriverStatus.on_trip,
                           assignedRequestId := some pr.1.id,
                           tripPhase := some TripPhase.to_pickup,
                           targetX := some pr.1.pickup_x, targetY := some pr.1.pickup_y,
                           idleTicks := 0 }) st.drivers := hx
    rcases mem_updFirst hx' with h1 | ⟨a, ha, hxa⟩
    · exact hd x h1
    · subst hxa
      have haIn := List.mem_of_find?_eq_some ha
      rcases hd a haIn with ⟨hpa, _⟩
      rcases hreq with ⟨q1, q2, q3, q4, _⟩
      exact ⟨hpa, ⟨fun t hteq => by cases hteq; exact ⟨q1, q2⟩,
                   fun t hteq => by cases hteq; exact ⟨q3, q4⟩⟩⟩
  · intro x hx
    have hx' : x ∈ updFirst (fun r => r.id == pr.1.id)
        (fun r => { r with status := RideRequestStatus.assigned,
                           assigned_driver_id := some pr.2.id }) st.requests := hx
    rcases mem_updFirst hx' with h1 | ⟨a, ha, hxa⟩
    · exact hr x h1
    · subst hxa
      exact hr a (List.mem_of_find?_eq_some ha)

theorem foldl_applyAssignment_boundsInv :
    ∀ (as : List (RideRequest × Driver)) (st : EngineState),
      BoundsInv st → (∀ pr ∈ as, reqOK pr.1) →
      BoundsInv (as.foldl applyAssignment st) := by
  intro as
  induction as with
  | nil => intro st h _; exact h
  | cons a as ih =>
    intro st h has
    exact ih _ (applyAssignment_boundsInv h (has a (List.mem_cons_self _ _)))
      fun pr hpr => has pr (List.mem_cons_of_mem _ hpr)

theorem queueSnapshot_reqOK {st : EngineState} (h : BoundsInv st) :
    ∀ r ∈ queueSnapshot st, reqOK r := by
  intro r hr
  rcases List.mem_filterMap.mp hr with ⟨qid, _, hfind⟩
  exact h.2.1 r (List.mem_of_find?_eq_some hfind)

theorem process_queue_boundsInv {st : EngineState} (h : BoundsInv st) :
    BoundsInv (SimulationEngine.process_queue st).2 := by
  rw [SimulationEngine.process_queue, QueueService.process_queue]
  cases has : drainAssignments (queueSnapshot st) (get_available_drivers st) with
  | nil =>
    simp only [has]
    exact h
  | cons pr prs =>
    simp only [has]
    have hq : ∀ x ∈ pr :: prs, reqOK x.1 := by
      intro x hx
      have hmem : x ∈ drainAssignments (queueSnapshot st) (get_available_drivers st) := by
        rw [has]; exact hx
      exact queueSnapshot_reqOK h _ (drainAssignments_mem_pool _ _ _ hmem).1
    have hfold : BoundsInv ((pr :: prs).foldl applyAssignment st) :=
      foldl_applyAssignment_boundsInv _ _ h hq
    rcases hfold with ⟨hd, hr, hrd⟩
    refine ⟨hd, ?_, hrd⟩
    intro x hx
    have hx' : x ∈ updFirst (fun r => r.id == pr.1.id)
        (fun r => { r with status := RideRequestStatus.assigned })
        ((pr :: prs).foldl applyAssignment st).requests := hx
    rcases mem_updFirst hx' with h1 | ⟨a, ha, hxa⟩
    · exact hr x h1
    · subst hxa
      exact hr a (List.mem_of_find?_eq_some ha)

theorem is_valid_position_true {x y : Int} (h : is_valid_position x y = true) :
    0 ≤ x ∧ x < DEFAULT_GRID_WIDTH ∧ 0 ≤ y ∧ y < DEFAULT_GRID_HEIGHT := by
  simpa [is_valid_position] using h

theorem rider_literal_rdOK {px py dx dy : Int}
    (h1 : is_valid_position px py = true) (h2 : is_valid_position dx dy = true)
    (ids : String) :
    rdOK { id := ids, pickup_x := px, pickup_y := py, dropoff_x := dx, dropoff_y := dy } := by
  rcases is_valid_position_true h1 with ⟨a1, a2, a3, a4⟩
  rcases is_valid_position_true h2 with ⟨b1, b2, b3, b4⟩
  exact ⟨a1, a2, a3, a4, b1, b2, b3, b4⟩

theorem riders_append_boundsInv {st : EngineState} {rd : Rider}
    (h : BoundsInv st) (hrd : rdOK rd) (n : Nat) :
    BoundsInv { st with riders := st.riders ++ [rd], riderCounter := n } := by
  refine ⟨h.1, h.2.1, ?_⟩
  intro x hx
  have hx' : x ∈ st.riders ++ [rd] := hx
  rcases List.mem_append.mp hx' with h1 | h1
  · exact h.2.2 x h1
  · have hx1 : x = rd := by simpa using h1
    subst hx1
    exact hrd

theorem create_request_boundsInv {st : EngineState} {rider : Rider}
    (h : BoundsInv st) (hrd : rdOK rider) :
    BoundsInv (RequestService.create_request st rider).2 ∧
      reqOK (RequestService.create_request st rider).1 := by
  have hreq : reqOK (RequestService.create_request st rider).1 := by
    rcases hrd with ⟨a1, a2, a3, a4, a5, a6, a7, a8⟩
    exact ⟨a1, a2, a3, a4, a5, a6, a7, a8⟩
  refine ⟨⟨h.1, ?_, h.2.2⟩, hreq⟩
  intro x hx
  have hx' : x ∈ st.requests ++ [(RequestService.create_request st rider).1] := hx
  rcases List.mem_append.mp hx' with h1 | h1
  · exact h.2.1 x h1
  · have hx1 : x = (RequestService.create_request st rider).1 := by simpa using h1
    subst hx1
    exact hreq

theorem try_assign_boundsInv {st : EngineState} {req : RideRequest}
    (h : BoundsInv st) (hreq : reqOK req) :
    BoundsInv (SimulationEngine.try_assign_request st req).2 := by
  rw [SimulationEngine.try_assign_request]
  cases hfb : ScoringService.find_best_driver (get_available_drivers st) req with
  | none => exact h
  | some d => exact applyAssignment_boundsInv h hreq

theorem assignOrEnqueue_boundsInv {st : EngineState} {req : RideRequest}
    (h : BoundsInv st) (hreq : reqOK req) :
    BoundsInv (assignOrEnqueue st req) := by
  rw [assignOrEnqueue]
  rcases hta : SimulationEngine.try_assign_request st req with ⟨b, st1⟩
  have h1 : BoundsInv st1 := by
    have h2 := @try_assign_boundsInv st req h hreq
    rw [hta] at h2
    exact h2
  cases b
  · exact h1
  · exact h1

theorem add_rider_boundsInv {st : EngineState} {px py dx dy : Int} (h : BoundsInv st) :
    BoundsInv (SimulationEngine.add_rider st px py dx dy).2 := by
  rw [SimulationEngine.add_rider, RiderService.add_rider]
  cases hv1 : is_valid_position px py with
  | false => exact h
  | true =>
    cases hv2 : is_valid_position dx dy with
    | false => exact h
    | true =>
      refine assignOrEnqueue_boundsInv ?_ ?_
      · exact (create_request_boundsInv
          (riders_append_boundsInv h (rider_literal_rdOK hv1 hv2 _) _)
          (rider_literal_rdOK hv1 hv2 _)).1
      · exact (create_request_boundsInv
          (riders_append_boundsInv h (rider_literal_rdOK hv1 hv2 _) _)
          (rider_literal_rdOK hv1 hv2 _)).2

theorem create_request_op_boundsInv {st : EngineState} {rid : String} (h : BoundsInv st) :
    BoundsInv (SimulationEngine.create_request st rid).2 := by
  rw [SimulationEngine.create_request]
  cases hlr : lookupRider st rid with
  | none => exact h
  | some rider =>
    have hrd : rdOK rider := h.2.2 rider (List.mem_of_find?_eq_some hlr)
    exact assignOrEnqueue_boundsInv (create_request_boundsInv h hrd).1
      (create_request_boundsInv h hrd).2

theorem remove_rider_drivers (st : EngineState) (rid : String) :
    (SimulationEngine.remove_rider st rid).2.drivers = st.drivers := by
  rw [SimulationEngine.remove_rider]
  cases lookupRider
      { RequestService.remove_requests_for_rider st rid with
        queue := (RequestService.remove_requests_for_rider st rid).queue.filter fun qid =>
          !(((st.requests.filter fun r => r.rider_id == rid).map fun r => r.id).contains qid) }
      rid <;> rfl

theorem remove_rider_riders_sub (st : EngineState) (rid : String) :
    ∀ x ∈ (SimulationEngine.remove_rider st rid).2.riders, x ∈ st.riders := by
  rw [SimulationEngine.remove_rider]
  cases lookupRider
      { RequestService.remove_requests_for_rider st rid with
        queue := (RequestService.remove_requests_for_rider st rid).queue.filter fun qid =>
          !(((st.requests.filter fun r => r.rider_id == rid).map fun r => r.id).contains qid) }
      rid with
  | none => intro x hx; exact hx
  | some rd => intro x hx; exact mem_removeFirst hx

theorem remove_rider_boundsInv {st : EngineState} {rid : String} (h : BoundsInv st) :
    BoundsInv (SimulationEngine.remove_rider st rid).2 := by
  refine ⟨?_, ?_, ?_⟩
  · intro x hx
    rw [remove_rider_drivers] at hx
    exact h.1 x hx
  · intro x hx
    rw [remove_rider_requests] at hx
    exact h.2.1 x (List.mem_filter.mp hx).1
  · intro x hx
    exact h.2.2 x (remove_rider_riders_sub st rid x hx)

theorem remove_driver_boundsInv {st : EngineState} {i : String} (h : BoundsInv st) :
    BoundsInv (SimulationEngine.remove_driver st i).2 := by
  rw [SimulationEngine.remove_driver]
  cases lookupDriver st i with
  | none => exact h
  | some d =>
    refine ⟨?_, h.2.1, h.2.2⟩
    intro x hx
    exact h.1 x (mem_removeFirst hx)

theorem driver_literal_ok {x y : Int}
    (hb : 0 ≤ x ∧ x < DEFAULT_GRID_WIDTH ∧ 0 ≤ y ∧ y < DEFAULT_GRID_HEIGHT) (ids : String) :
    posOK { id := ids, x := x, y := y, status := DriverStatus.available, totalTrips := 0,
            idleTicks := 0, assignedRequestId := none, tripPhase := none,
            targetX := none, targetY := none } ∧
    tgtOK { id := ids, x := x, y := y, status := DriverStatus.available, totalTrips := 0,
            idleTicks := 0, assignedRequestId := none, tripPhase := none,
            targetX := none, targetY := none } := by
  rcases hb with ⟨b1, b2, b3, b4⟩
  constructor
  · exact ⟨b1, b2, b3, b4⟩
  · constructor
    · intro t ht
      cases ht
    · intro t ht
      cases ht

theorem drivers_append_boundsInv {st : EngineState} {d : Driver}
    (h : BoundsInv st) (hd : posOK d ∧ tgtOK d) (n : Nat) :
    BoundsInv { st with drivers := st.drivers ++ [d], driverCounter := n } := by
  refine ⟨?_, h.2.1, h.2.2⟩
  intro x hx
  have hx' : x ∈ st.drivers ++ [d] := hx
  rcases List.mem_append.mp hx' with h1 | h1
  · exact h.1 x h1
  · have hx1 : x = d := by simpa using h1
    subst hx1
    exact hd

theorem add_driver_boundsInv {st : EngineState} {x y : Int} (h : BoundsInv st) :
    BoundsInv (SimulationEngine.add_driver st x y).2 := by
  rcases hda : DriverService.add_driver st x y with ⟨r, st1⟩
  have h1 : BoundsInv st1 := by
    rw [DriverService.add_driver] at hda
    split at hda
    · rename_i hv
      injection hda with hr hst
      rw [← hst]
      exact drivers_append_boundsInv h (driver_literal_ok (is_valid_position_true hv) _) _
    · injection hda with hr hst
      rw [← hst]
      exact h
  rw [SimulationEngine.add_driver, hda]
  cases r with
  | error e => exact h1
  | ok d =>
    show BoundsInv ((match SimulationEngine.process_queue st1 with
      | (some e, st2) => (Except.error e, st2)
      | (none, st2) => (Except.ok d, st2)).2)
    rcases hpq : SimulationEngine.process_queue st1 with ⟨e, st2⟩
    have h2 := process_queue_boundsInv h1
    rw [hpq] at h2
    cases e
    · exact h2
    · exact h2

theorem complete_trip_boundsInv {st : EngineState} {i : String} {req : RideRequest}
    (h : BoundsInv st) : BoundsInv (SimulationEngine.complete_trip st i req).2 := by
  rw [SimulationEngine.complete_trip]
  apply process_queue_boundsInv
  apply remove_rider_boundsInv
  refine ⟨?_, ?_, h.2.2⟩
  · intro x hx
    have hx' : x ∈ updFirst (fun d => d.id == i) completeTripDriver st.drivers := hx
    rcases mem_updFirst hx' with h1 | ⟨a, ha, hxa⟩
    · exact h.1 x h1
    · subst hxa
      have haIn := List.mem_of_find?_eq_some ha
      refine ⟨(h.1 a haIn).1, ?_, ?_⟩
      · intro t ht
        cases ht
      · intro t ht
        cases ht
  · intro x hx
    have hx' : x ∈ updFirst (fun r => r.id == req.id)
        (fun r => { r with status := RideRequestStatus.completed }) st.requests := hx
    rcases mem_updFirst hx' with h1 | ⟨a, ha, hxa⟩
    · exact h.2.1 x h1
    · subst hxa
      exact h.2.1 a (List.mem_of_find?_eq_some ha)

theorem retarget_boundsInv {st : EngineState} {i : String} {req : RideRequest}
    (h : BoundsInv st) (hreq : reqOK req) :
    BoundsInv (updFirstDriver st i fun d =>
      { d with tripPhase := some TripPhase.to_dropoff,
               targetX := some req.dropoff_x, targetY := some req.dropoff_y }) := by
  refine ⟨?_, h.2.1, h.2.2⟩
  intro x hx
  have hx' : x ∈ updFirst (fun d => d.id == i)
      (fun d => { d with tripPhase := some TripPhase.to_dropoff,
                         targetX := some req.dropoff_x,
                         targetY := some req.dropoff_y }) st.drivers := hx
  rcases mem_updFirst hx' with h1 | ⟨a, ha, hxa⟩
  · exact h.1 x h1
  · subst hxa
    have haIn := List.mem_of_find?_eq_some ha
    rcases hreq with ⟨_, _, _, _, c5, c6, c7, c8⟩
    refine ⟨(h.1 a haIn).1, ?_, ?_⟩
    · intro t ht
      cases ht
      exact ⟨c5, c6⟩
    · intro t ht
      cases ht
      exact ⟨c7, c8⟩

theorem move_one_step_boundsInv {st : EngineState} {i : String} (h : BoundsInv st) :
    BoundsInv (SimulationEngine.move_driver_one_step st i).2 := by
  rw [SimulationEngine.move_driver_one_step]
  cases hld : lookupDriver st i with
  | none => exact h
  | some d0 =>
    have h1 : BoundsInv (updFirstDriver st i movePos) := by
      refine ⟨?_, h.2.1, h.2.2⟩
      intro x hx
      have hx' : x ∈ updFirst (fun d => d.id == i) movePos st.drivers := hx
      rcases mem_updFirst hx' with h2 | ⟨a, ha, hxa⟩
      · exact h.1 x h2
      · subst hxa
        have haIn := List.mem_of_find?_eq_some ha
        exact movePos_pointwise (h.1 a haIn).1 (h.1 a haIn).2
    dsimp only
    cases htx : (movePos d0).targetX with
    | none =>
      cases hty : (movePos d0).targetY with
      | none => exact h1
      | some ty => exact h1
    | some tx =>
      cases hty : (movePos d0).targetY with
      | none => exact h1
      | some ty =>
        dsimp only
        by_cases hpos : ((movePos d0).x == tx && (movePos d0).y == ty) = true
        · rw [if_pos hpos]
          cases hri : (movePos d0).assignedRequestId with
          | none => exact h1
          | some rid =>
            dsimp only
            cases hlr : lookupRequest (updFirstDriver st i movePos) rid with
            | none => exact h1
            | some req =>
              dsimp only
              have hreq : reqOK req := h1.2.1 req (List.mem_of_find?_eq_some hlr)
              cases hph : (movePos d0).tripPhase with
              | none => exact h1
              | some ph =>
                cases ph with
                | to_pickup => exact retarget_boundsInv h1 hreq
                | to_dropoff => exact complete_trip_boundsInv h1
        · rw [if_neg hpos]
          exact h1

theorem runBusy_boundsInv :
    ∀ (ids : List String) (st : EngineState), BoundsInv st → BoundsInv (runBusy st ids).2 := by
  intro ids
  induction ids with
  | nil => intro st h; exact h
  | cons i rest ih =>
    intro st h
    rw [runBusy]
    rcases hms : SimulationEngine.move_driver_one_step st i with ⟨e, st1⟩
    have h1 : BoundsInv st1 := by
      have h2 := @move_one_step_boundsInv st i h
      rw [hms] at h2
      exact h2
    cases e with
    | none => exact ih _ h1
    | some e => exact h1

theorem incrementIdles_boundsInv {st : EngineState} (h : BoundsInv st) :
    BoundsInv (incrementIdles st) := by
  refine ⟨?_, h.2.1, h.2.2⟩
  intro x hx
  have hx' : x ∈ st.drivers.map fun d =>
      if d.status == DriverStatus.available then { d with idleTicks := d.idleTicks + 1 }
      else d := hx
  rcases List.mem_map.mp hx' with ⟨a, ha, hxa⟩
  subst hxa
  rcases h.1 a ha with ⟨hpa, hta⟩
  split
  · exact ⟨hpa, hta⟩
  · exact ⟨hpa, hta⟩

theorem advance_tick_boundsInv {st : EngineState} (h : BoundsInv st) :
    BoundsInv (SimulationEngine.advance_tick st).2 := by
  rw [SimulationEngine.advance_tick]
  rcases hrb : runBusy st (busyIds st) with ⟨e, st1⟩
  have h1 : BoundsInv st1 := by
    have h2 := runBusy_boundsInv (busyIds st) st h
    rw [hrb] at h2
    exact h2
  cases e with
  | some e => exact h1
  | none => exact process_queue_boundsInv (incrementIdles_boundsInv h1)

theorem applyOp_boundsInv (st : EngineState) (op : Op) (h : BoundsInv st) :
    BoundsInv (applyOp st op) := by
  cases op with
  | addDriver x y => exact add_driver_boundsInv h
  | removeDriver i => exact remove_driver_boundsInv h
  | addRider px py dx dy => exact add_rider_boundsInv h
  | removeRider i => exact remove_rider_boundsInv h
  | createRequest i => exact create_request_op_boundsInv h
  | advanceTick => exact advance_tick_boundsInv h
  | reset =>
    refine ⟨?_, ?_, ?_⟩ <;> intro a ha <;> exact absurd ha (List.not_mem_nil a)

theorem runOps_boundsInv (ops : List Op) : BoundsInv (runOps ops) := by
  rw [runOps]
  have hgen : ∀ (l : List Op) (st : EngineState), BoundsInv st → BoundsInv (l.foldl applyOp st) := by
    intro l
    induction l with
    | nil => intro st h; exact h
    | cons op l ih => intro st h; exact ih _ (applyOp_boundsInv _ _ h)
  apply hgen
  refine ⟨?_, ?_, ?_⟩ <;> intro a ha <;> exact absurd ha (List.not_mem_nil a)

/-- C10: in every engine state reachable by public operations, every driver's
position lies on the 20×20 grid (creation is bounds-checked, and each movement
step moves one unit per axis toward a target that is itself on the grid). -/
theorem c10_drivers_in_bounds (ops : List Op) :
    ∀ d ∈ (runOps ops).drivers, 0 ≤ d.x ∧ d.x < 20 ∧ 0 ≤ d.y ∧ d.y < 20 :=
  fun d hd => ((runOps_boundsInv ops).1 d hd).1

/-- Closed witness for C10 at the reachable state `[add_driver(3,4)]`. -/
theorem c10_witness :
    0 ≤ (⟨"Driver 1", 3, 4, DriverStatus.available, 0, 0, none, none, none, none⟩ : Driver).x ∧
    (⟨"Driver 1", 3, 4, DriverStatus.available, 0, 0, none, none, none, none⟩ : Driver).x < 20 ∧
    0 ≤ (⟨"Driver 1", 3, 4, DriverStatus.available, 0, 0, none, none, none, none⟩ : Driver).y ∧
    (⟨"Driver 1", 3, 4, DriverStatus.available, 0, 0, none, none, none, none⟩ : Driver).y < 20 :=
  c10_drivers_in_bounds [Op.addDriver 3 4]
    ⟨"Driver 1", 3, 4, DriverStatus.available, 0, 0, none, none, none, none⟩ (by decide)

/-! ### the idle-increment behaviour of advance_tick (C3, amended) -/

theorem find?_congr_pred {α} {p q : α → Bool} (h : ∀ a, p a = q a) :
    ∀ l : List α, l.find? p = l.find? q := by
  intro l
  induction l with
  | nil => rfl
  | cons a l ih => rw [List.find?_cons, List.find?_cons, h a, ih]

theorem lookupDriver_incrementIdles (st : EngineState) (i : String) :
    lookupDriver (incrementIdles st) i =
      (lookupDriver st i).map fun d =>
        if d.status == DriverStatus.available then { d with idleTicks := d.idleTicks + 1 }
        else d := by
  show (st.drivers.map fun d =>
      if d.status == DriverStatus.available then { d with idleTicks := d.idleTicks + 1 }
      else d).find? (fun d => d.id == i) = _
  rw [List.find?_map]
  have hpred : ∀ dd : Driver,
      ((fun d : Driver => d.id == i) ∘ fun d =>
        if d.status == DriverStatus.available then { d with idleTicks := d.idleTicks + 1 }
        else d) dd = (fun d : Driver => d.id == i) dd := by
    intro dd
    dsimp [Function.comp]
    split
    · rfl
    · rfl
  rw [find?_congr_pred hpred st.drivers]
  rfl

theorem process_queue_drain_nil {st : EngineState}
    (h : drainAssignments (queueSnapshot st) (get_available_drivers st) = []) :
    SimulationEngine.process_queue st = (none, st) := by
  rw [SimulationEngine.process_queue, QueueService.process_queue]
  simp only [h]
  rfl

theorem process_queue_none {st st2 : EngineState}
    (h : SimulationEngine.process_queue st = (none, st2)) : st2 = st := by
  cases hd : drainAssignments (queueSnapshot st) (get_available_drivers st) with
  | nil =>
    rw [process_queue_drain_nil hd] at h
    injection h with h1 h2
    exact h2.symm
  | cons pr prs =>
    rw [SimulationEngine.process_queue, QueueService.process_queue] at h
    simp only [hd] at h
    injection h with h1 h2
    simp at h1

/-- C3, amended: a driver that is available with `idleTicks = 0` after the
movement/completion phase of `advance_tick` (as a driver that completed its
trip this tick and was not reassigned by the nested drain is) ends a
successfully completing tick with `idleTicks = 1`: the idle-increment loop
re-reads the available set after the movement phase, so the just-completed
driver receives that tick's increment instead of being excluded from it. -/
theorem c3_amended_idle_one (st st1 st2 : EngineState) (i : String) (d : Driver)
    (h1 : runBusy st (busyIds st) = (none, st1))
    (h2 : lookupDriver st1 i = some d)
    (h3 : d.status = DriverStatus.available)
    (h4 : d.idleTicks = 0)
    (h5 : SimulationEngine.advance_tick st = (none, st2)) :
    ∃ d2, lookupDriver st2 i = some d2 ∧ d2.idleTicks = 1 := by
  rw [SimulationEngine.advance_tick, h1] at h5
  have hst2 : st2 = incrementIdles st1 := process_queue_none h5
  subst hst2
  rw [lookupDriver_incrementIdles, h2]
  have hcond : (d.status == DriverStatus.available) = true := by simp [h3]
  refine ⟨{ d with idleTicks := d.idleTicks + 1 }, ?_, ?_⟩
  · show some (if d.status == DriverStatus.available
        then { d with idleTicks := d.idleTicks + 1 } else d) = _
    rw [if_pos hcond]
  · show d.idleTicks + 1 = 1
    rw [h4]

/-- Closed witness for the amended C3: the single-driver scenario in which the
second tick completes the trip; the driver ends that tick with idleTicks 1. -/
theorem c3_amended_witness :
    (lookupDriver (SimulationEngine.advance_tick
        (runOps [Op.addDriver 0 0, Op.addRider 0 0 0 1, Op.advanceTick])).2 "Driver 1").map
      (fun d => d.idleTicks) = some 1 := by
  obtain ⟨d2, hl, hi⟩ := c3_amended_idle_one
    (runOps [Op.addDriver 0 0, Op.addRider 0 0 0 1, Op.advanceTick])
    (runBusy (runOps [Op.addDriver 0 0, Op.addRider 0 0 0 1, Op.advanceTick])
      (busyIds (runOps [Op.addDriver 0 0, Op.addRider 0 0 0 1, Op.advanceTick]))).2
    (SimulationEngine.advance_tick
      (runOps [Op.addDriver 0 0, Op.addRider 0 0 0 1, Op.advanceTick])).2
    "Driver 1"
    ⟨"Driver 1", 0, 1, DriverStatus.available, 1, 0, none, none, none, none⟩
    (by decide) (by decide) rfl rfl (by decide)
  rw [hl]
  simp [hi]
